import Mathlib

/-!
Verification of the task-management application (client filtering, due-date
classification, and the Task/Category CRUD services) against its specification.

The data model and operations are shallowly embedded from the sources:
the React client (App component), the mongoose task and category schemas,
the Express categories router, and the client API layer.  JS strings are
modelled as Lean strings, JS string helpers (toLowerCase, trim, includes)
as explicit functions over the character list, and JS dates as a calendar
day number (days since the epoch) plus the milliseconds elapsed within
that day.
-/

namespace TaskApp

/-! ### String operations of the JS runtime -/

/-- Model of the JS `String.prototype.toLowerCase`: lowercase every character. -/
def jsToLower (s : String) : String :=
  String.mk (s.data.map Char.toLower)

/-- Model of the JS `String.prototype.trim` (also the mongoose `trim` setter):
drop whitespace from both ends. -/
def jsTrim (s : String) : String :=
  String.mk (((s.data.dropWhile Char.isWhitespace).reverse.dropWhile Char.isWhitespace).reverse)

/-- Model of the JS `String.prototype.includes`: substring containment. -/
def jsIncludes (s sub : String) : Bool :=
  decide (sub.data <:+: s.data)

theorem toNat_ofNat_valid {n : Nat} (h : n.isValidChar) : (Char.ofNat n).toNat = n := by
  simp [Char.ofNat, h, Char.ofNatAux, Char.toNat, UInt32.toNat, BitVec.toNat_ofNatLt]

theorem charToLower_idem (c : Char) : c.toLower.toLower = c.toLower := by
  unfold Char.toLower
  by_cases h : c.toNat ≥ 65 ∧ c.toNat ≤ 90
  · rw [if_pos h]
    have hv : (c.toNat + 32).isValidChar := by
      left
      omega
    have ht : (Char.ofNat (c.toNat + 32)).toNat = c.toNat + 32 := toNat_ofNat_valid hv
    rw [if_neg]
    omega
  · rw [if_neg h, if_neg h]

theorem jsToLower_idem (s : String) : jsToLower (jsToLower s) = jsToLower s := by
  simp only [jsToLower, List.map_map]
  congr 1
  exact List.map_congr_left (fun c _ => charToLower_idem c)

/-! ### Data model -/

/-- Priority enumeration of the task schema. -/
inductive Priority
  | low
  | medium
  | high
deriving DecidableEq, Repr

/-- Model of a JS `Date`: the calendar day (days since the epoch) together with
the milliseconds elapsed within that day. -/
structure JSDate where
  day : Int
  msOfDay : Int
deriving DecidableEq, Repr

/-- Task record, following the mongoose task schema and the client `Task` interface. -/
structure Task where
  id : String
  title : String
  description : String
  completed : Bool
  priority : Priority
  dueDate : Option JSDate
  category : String
  createdAt : Int
deriving DecidableEq, Repr

/-- Category record, following the mongoose category schema. -/
structure Category where
  id : Nat
  name : String
  createdAt : Int
deriving DecidableEq, Repr

/-! ### Client filtering (App component, filteredTasks) -/

/-- Client-side filter over the in-memory task list, translated from the
`filteredTasks` computation of the App component: a task is kept when the
tab predicate and the search predicate both hold. -/
def filteredTasks (tasks : List Task) (activeTab : String) (searchQuery : String) : List Task :=
  tasks.filter fun task =>
    let matchesTab :=
      activeTab == "all" ||
      (activeTab == "completed" && task.completed) ||
      (activeTab == "active" && !task.completed) ||
      (activeTab == "high-priority" && task.priority == Priority.high) ||
      (activeTab == task.category)
    let matchesSearch :=
      jsIncludes (jsToLower task.title) (jsToLower searchQuery) ||
      jsIncludes (jsToLower task.description) (jsToLower searchQuery)
    matchesTab && matchesSearch

/-- Tab-match relation exactly as the specification sentence words it: the four
built-in tabs are matched by their stated conditions, and any other tab value
matches precisely when it equals the task category. -/
def specTabMatch (tab : String) (t : Task) : Prop :=
  if tab = "all" then True
  else if tab = "active" then t.completed = false
  else if tab = "completed" then t.completed = true
  else if tab = "high-priority" then t.priority = Priority.high
  else tab = t.category

instance (tab : String) (t : Task) : Decidable (specTabMatch tab t) := by
  unfold specTabMatch
  infer_instance

/-- Search-match relation as the specification words it: the search string,
case-insensitively, is a substring of the title or of the description. -/
def specSearchMatch (q : String) (t : Task) : Prop :=
  (jsToLower q).data <:+: (jsToLower t.title).data ∨
  (jsToLower q).data <:+: (jsToLower t.description).data

instance (q : String) (t : Task) : Decidable (specSearchMatch q t) := by
  unfold specSearchMatch
  infer_instance

/-- Tab-match relation amended to what the code computes: the five clauses are
disjunctive, so the category-equality clause applies to every tab value, not
only to tab values other than the built-in four. -/
def amendedTabMatch (tab : String) (t : Task) : Prop :=
  tab = "all" ∨
  (tab = "completed" ∧ t.completed = true) ∨
  (tab = "active" ∧ t.completed = false) ∨
  (tab = "high-priority" ∧ t.priority = Priority.high) ∨
  tab = t.category

instance (tab : String) (t : Task) : Decidable (amendedTabMatch tab t) := by
  unfold amendedTabMatch
  infer_instance

/-- Concrete task showing that the specification reading of tab matching and the
code disagree: a completed task whose category is the string "active". -/
def cexTask : Task :=
  { id := "t1"
    title := "a"
    description := ""
    completed := true
    priority := Priority.low
    dueDate := none
    category := "active"
    createdAt := 0 }

/-! ### Due-date status derivation (App component, getDueDateStatus) -/

/-- Status values returned by the due-date classification. -/
inductive DueStatus
  | overdue
  | today
  | soon
  | future
deriving DecidableEq, Repr

/-- Milliseconds per day, the divisor used by the App component. -/
def msPerDay : Int := 1000 * 60 * 60 * 24

/-- Model of `setHours(0, 0, 0, 0)`: strip the time of day. -/
def setHours0 (d : JSDate) : JSDate := ⟨d.day, 0⟩

/-- Model of `Date.prototype.getTime`: milliseconds since the epoch. -/
def getTime (d : JSDate) : Int := d.day * msPerDay + d.msOfDay

/-- Due-date classification translated from `getDueDateStatus` in the App
component: both dates are truncated to midnight, their difference in days is
taken, and the sign and size of that difference select the status. -/
def getDueDateStatus (dueDate : Option JSDate) (now : JSDate) : Option DueStatus :=
  match dueDate with
  | none => none
  | some due =>
    let today := setHours0 now
    let dueDay := setHours0 due
    let diffTime := getTime dueDay - getTime today
    let diffDays := diffTime / msPerDay
    if diffDays < 0 then some DueStatus.overdue
    else if diffDays = 0 then some DueStatus.today
    else if diffDays ≤ 2 then some DueStatus.soon
    else some DueStatus.future

/-- Day number (days since 1970-01-01) of a proleptic Gregorian calendar date,
used to state the concrete examples of the specification. -/
def civilToDays (y m d : Int) : Int :=
  let y2 : Int := if m ≤ 2 then y - 1 else y
  let era : Int := (if 0 ≤ y2 then y2 else y2 - 399) / 400
  let yoe : Int := y2 - era * 400
  let mp : Int := (m + 9) % 12
  let doy : Int := (153 * mp + 2) / 5 + d - 1
  let doe : Int := yoe * 365 + yoe / 4 - yoe / 100 + doy
  era * 146097 + doe - 719468

/-! ### Category service (Express categories router and category schema) -/

/-- Name as stored by the category schema: the `trim` and `lowercase` setters
are applied on save. -/
def storedName (n : String) : String := jsToLower (jsTrim n)

/-- Responses of the category create route. -/
inductive CatCreateResp
  | conflictMsg
  | dupKeyErr
  | createdDoc (c : Category)
  | createdName (n : String)
deriving DecidableEq, Repr

/-- HTTP status carried by each category create response: the early duplicate
check and the unique-index save failure both answer 400, a successful save
answers 201. -/
def statusOfCreate : CatCreateResp → Nat
  | CatCreateResp.conflictMsg => 400
  | CatCreateResp.dupKeyErr => 400
  | CatCreateResp.createdDoc _ => 201
  | CatCreateResp.createdName _ => 201

/-- Client result of `createCategory` in the API layer: the `name` field of the
response body. -/
def clientCategoryName : CatCreateResp → Option String
  | CatCreateResp.createdDoc c => some c.name
  | CatCreateResp.createdName n => some n
  | _ => none

/-- POST /categories translated from the categories router: look up the
lowercased request name, answer 400 when found, otherwise save a document whose
name the schema setters have trimmed and lowercased.  The document store
enforces the unique index on `name`, so a save that collides with a stored name
fails and inserts nothing. -/
def runCreateCategory (s : List Category) (reqName : String) (freshId : Nat) (now : Int) :
    List Category × CatCreateResp :=
  if (s.find? fun c => c.name == jsToLower reqName).isSome then
    (s, CatCreateResp.conflictMsg)
  else
    let c : Category := ⟨freshId, storedName reqName, now⟩
    if (s.find? fun c2 => c2.name == c.name).isSome then
      (s, CatCreateResp.dupKeyErr)
    else
      (s ++ [c], CatCreateResp.createdDoc c)

/-- GET /categories translated from the categories router: all stored names,
sorted ascending as `sort(\x7bname: 1\x7d)` does. -/
def runListCategories (s : List Category) : List String :=
  (s.map Category.name).mergeSort

/-- Responses of the category delete route. -/
inductive CatDeleteResp
  | notFound
  | deleted
deriving DecidableEq, Repr

/-- DELETE /categories/:name translated from the categories router: look up the
lowercased request name, answer 404 when absent, otherwise delete the found
document by its id. -/
def runDeleteCategory (s : List Category) (paramName : String) :
    List Category × CatDeleteResp :=
  match s.find? fun c => c.name == jsToLower paramName with
  | none => (s, CatDeleteResp.notFound)
  | some c => (s.filter fun c2 => c2.id != c.id, CatDeleteResp.deleted)

/-- Combined store state: the task collection and the category collection. -/
structure SysState where
  tasks : List Task
  categories : List Category
deriving DecidableEq, Repr

/-- Category delete at the level of the whole store: the route reads and writes
only the category collection. -/
def runDeleteCategorySys (st : SysState) (paramName : String) :
    SysState × CatDeleteResp :=
  let r := runDeleteCategory st.categories paramName
  (⟨st.tasks, r.1⟩, r.2)

/-- States of the category collection reachable from the empty collection by
the category service operations (list has no state effect). -/
inductive CatReachable : List Category → Prop
  | init : CatReachable []
  | create (s : List Category) (n : String) (freshId : Nat) (now : Int) :
      CatReachable s → CatReachable (runCreateCategory s n freshId now).1
  | del (s : List Category) (n : String) :
      CatReachable s → CatReachable (runDeleteCategory s n).1

/-! ### Task service -/

/-- Create DTO of the client API layer: a task lacking id and createdAt. -/
structure CreateTaskDto where
  title : String
  description : String
  completed : Bool
  priority : Priority
  dueDate : Option JSDate
  category : String
deriving DecidableEq, Repr

/-- Responses of the task create operation. -/
inductive TaskCreateResp
  | validationErr
  | created (t : Task)
deriving DecidableEq, Repr

/-- Modelled from the spec: the POST /tasks route itself is not among the given
sources, so Create is modelled from the task schema (title required and
trimmed, description trimmed) and from the Create operation of the
specification: a title that is empty after trimming fails validation and
persists nothing; otherwise the store assigns id and createdAt and appends the
record. -/
def runCreateTask (s : List Task) (dto : CreateTaskDto) (freshId : String) (now : Int) :
    List Task × TaskCreateResp :=
  let title := jsTrim dto.title
  if title = "" then
    (s, TaskCreateResp.validationErr)
  else
    let t : Task :=
      ⟨freshId, title, jsTrim dto.description, dto.completed, dto.priority,
        dto.dueDate, dto.category, now⟩
    (s ++ [t], TaskCreateResp.created t)

/-- Client `handleAddTask` from the App component, paired with the server state
it talks to: an empty trimmed title is rejected locally with no request issued;
otherwise the create request runs and a created task is prepended to the client
list. -/
def clientHandleAddTask (tasks serverTasks : List Task) (dto : CreateTaskDto)
    (freshId : String) (now : Int) : List Task × List Task :=
  if jsTrim dto.title = "" then
    (tasks, serverTasks)
  else
    match runCreateTask serverTasks dto freshId now with
    | (s2, TaskCreateResp.created t) => (t :: tasks, s2)
    | (s2, TaskCreateResp.validationErr) => (tasks, s2)

/-- Partial field set of a task update request (PATCH body): absent fields are
`none`. The client API layer never places id or createdAt in the body, so the
patch has no such fields. -/
structure TaskPatch where
  title : Option String
  description : Option String
  completed : Option Bool
  priority : Option Priority
  dueDate : Option (Option JSDate)
  category : Option String
deriving DecidableEq, Repr

/-- Modelled from the spec: the PATCH /tasks route itself is not among the given
sources, so Update applies only the supplied fields of the patch, and id and
createdAt are never mutable. -/
def applyPatch (t : Task) (p : TaskPatch) : Task :=
  { id := t.id
    title := p.title.getD t.title
    description := p.description.getD t.description
    completed := p.completed.getD t.completed
    priority := p.priority.getD t.priority
    dueDate := p.dueDate.getD t.dueDate
    category := p.category.getD t.category
    createdAt := t.createdAt }

/-- Responses of the task update operation. -/
inductive TaskUpdateResp
  | notFound
  | updated (t : Task)
deriving DecidableEq, Repr

/-- Modelled from the spec: task update over the collection, 404 when the id is
absent, otherwise the patch is applied to the identified record and the updated
record is returned. -/
def runUpdateTask (s : List Task) (tid : String) (p : TaskPatch) :
    List Task × TaskUpdateResp :=
  match s.find? fun t => t.id == tid with
  | none => (s, TaskUpdateResp.notFound)
  | some t =>
      (s.map fun u => if u.id == tid then applyPatch u p else u,
       TaskUpdateResp.updated (applyPatch t p))

/-! ### Claim C1: client filtering -/

/-- C1 counterexample: with tab "active", an empty search string and a single
completed task whose category is the string "active", the client filter keeps
the task although the tab-match relation of the claim rejects it (tab "active"
should match only tasks with completed = false), so the filter output is not
the set of tasks satisfying the claimed predicate. -/
theorem filteredTasks_claim_counterexample :
    filteredTasks [cexTask] "active" "" = [cexTask] ∧ ¬ specTabMatch "active" cexTask := by
  constructor
  · decide
  · simp [specTabMatch, cexTask]

/-- C1 (amended): for every task list, tab and search string, the client filter
returns exactly the tasks satisfying tab-match AND search-match in source
order, where the tab-match clauses are disjunctive: "all" matches everything,
"completed" matches completed tasks, "active" matches uncompleted tasks,
"high-priority" matches high priority, and every tab value additionally
matches when it equals the task category case-sensitively; search matches when
the search string is a case-insensitive substring of title or description. -/
theorem filteredTasks_amended (tasks : List Task) (tab q : String) :
    filteredTasks tasks tab q
      = tasks.filter (fun t => decide (amendedTabMatch tab t ∧ specSearchMatch q t)) ∧
    (filteredTasks tasks tab q).Sublist tasks := by
  refine ⟨List.filter_congr ?_, List.filter_sublist _⟩
  intro t _
  rw [Bool.eq_iff_iff]
  simp [amendedTabMatch, specSearchMatch, jsIncludes, and_assoc, or_assoc]

/-! ### Claims C2 and C10: due-date classification -/

theorem getDueDateStatus_some (due now : JSDate) :
    getDueDateStatus (some due) now =
      (if due.day - now.day < 0 then some DueStatus.overdue
       else if due.day - now.day = 0 then some DueStatus.today
       else if due.day - now.day ≤ 2 then some DueStatus.soon
       else some DueStatus.future) := by
  have hm : (msPerDay : Int) ≠ 0 := by norm_num [msPerDay]
  have hdiff : (due.day * msPerDay + 0 - (now.day * msPerDay + 0)) / msPerDay
      = due.day - now.day := by
    rw [add_zero, add_zero, ← sub_mul, Int.mul_ediv_cancel _ hm]
  simp only [getDueDateStatus, setHours0, getTime, hdiff]

/-- C2: for every due date and current date the classification strips the time
of day and depends only on the two calendar days: overdue exactly when the due
day is strictly before today, today exactly on equality, soon exactly 1 to 2
days ahead, future exactly when more than 2 days ahead; and the four concrete
examples of the specification (today = 2024-01-10) classify as stated. -/
theorem dueDateStatus_spec :
    (∀ due now : JSDate,
      (getDueDateStatus (some due) now = some DueStatus.overdue ↔ due.day < now.day) ∧
      (getDueDateStatus (some due) now = some DueStatus.today ↔ due.day = now.day) ∧
      (getDueDateStatus (some due) now = some DueStatus.soon ↔
        now.day + 1 ≤ due.day ∧ due.day ≤ now.day + 2) ∧
      (getDueDateStatus (some due) now = some DueStatus.future ↔ now.day + 2 < due.day)) ∧
    getDueDateStatus (some ⟨civilToDays 2024 1 9, 0⟩) ⟨civilToDays 2024 1 10, 43200000⟩
      = some DueStatus.overdue ∧
    getDueDateStatus (some ⟨civilToDays 2024 1 10, 0⟩) ⟨civilToDays 2024 1 10, 43200000⟩
      = some DueStatus.today ∧
    getDueDateStatus (some ⟨civilToDays 2024 1 11, 0⟩) ⟨civilToDays 2024 1 10, 43200000⟩
      = some DueStatus.soon ∧
    getDueDateStatus (some ⟨civilToDays 2024 1 20, 0⟩) ⟨civilToDays 2024 1 10, 43200000⟩
      = some DueStatus.future := by
  refine ⟨?_, by decide, by decide, by decide, by decide⟩
  intro due now
  rw [getDueDateStatus_some]
  refine ⟨?_, ?_, ?_, ?_⟩ <;> split_ifs <;> simp <;> omega

/-- C10: a null due date yields no classification. -/
theorem dueDateStatus_null (now : JSDate) : getDueDateStatus none now = none := rfl

/-! ### Claim C8: category delete does not touch the task collection -/

/-- C8: for every store state and category name, the category delete route
leaves the task collection entirely unchanged, so every task record (including
tasks whose category field references the deleted name) has exactly the same
field values after the delete as before. -/
theorem deleteCategory_tasks_frame (st : SysState) (n : String) :
    (runDeleteCategorySys st n).1.tasks = st.tasks ∧
    ∀ t ∈ st.tasks, t ∈ (runDeleteCategorySys st n).1.tasks := by
  refine ⟨rfl, ?_⟩
  intro t ht
  exact ht

/-! ### Claim C9: category list -/

/-- C9: for every category collection, the list route returns exactly the names
of all stored categories (a permutation of them, nothing more and nothing
less), sorted lexicographically. -/
theorem categoryList_spec (s : List Category) :
    (runListCategories s).Perm (s.map Category.name) ∧
    List.Sorted (fun a b : String => a ≤ b) (runListCategories s) :=
  ⟨List.mergeSort_perm _ _, List.sorted_mergeSort' _⟩

/-! ### Claims C3 and C5: category create -/

/-- C3: whenever some stored category already carries the lowercased trimmed
candidate name, the create route fails with status 400 and the collection is
unchanged: either the early duplicate check fires, or the save collides with
the unique index on the stored name and inserts nothing. -/
theorem categoryCreate_conflict (s : List Category) (n : String) (freshId : Nat) (now : Int)
    (h : ∃ c ∈ s, c.name = storedName n) :
    (runCreateCategory s n freshId now).1 = s ∧
    statusOfCreate (runCreateCategory s n freshId now).2 = 400 := by
  unfold runCreateCategory
  by_cases h1 : (s.find? fun c => c.name == jsToLower n).isSome
  · simp [h1, statusOfCreate]
  · have h2 : (s.find? fun c2 => c2.name == storedName n).isSome := by
      rw [List.find?_isSome]
      obtain ⟨c, hc, hn⟩ := h
      exact ⟨c, hc, by simp [hn]⟩
    simp [h1, h2, statusOfCreate]

theorem categoryCreate_conflict_witness :
    (∃ c ∈ [(⟨0, "work", 0⟩ : Category)], c.name = storedName " Work") ∧
    (runCreateCategory [(⟨0, "work", 0⟩ : Category)] " Work" 1 5).1
      = [(⟨0, "work", 0⟩ : Category)] ∧
    statusOfCreate (runCreateCategory [(⟨0, "work", 0⟩ : Category)] " Work" 1 5).2 = 400 :=
  ⟨by decide, categoryCreate_conflict _ _ 1 5 (by decide)⟩

/-- C5 counterexample: creating category "Work" in the empty collection
succeeds, but the route answers with the full created document (id, name and
createdAt), not with a body holding only the created name, so the response is
not exactly the created name and nothing more. -/
theorem categoryCreate_body_counterexample :
    (runCreateCategory [] "Work" 0 0).2 = CatCreateResp.createdDoc ⟨0, "work", 0⟩ ∧
    (runCreateCategory [] "Work" 0 0).2 ≠ CatCreateResp.createdName "work" := by
  constructor
  · decide
  · decide

/-- C5 (amended): every successful category create answers 201 with the full
created document as its body; the name field of that document is the
lowercased trimmed candidate name, and the client createCategory helper
returns exactly that name, extracted from the body. -/
theorem categoryCreate_success (s : List Category) (n : String) (freshId : Nat) (now : Int)
    (h1 : s.find? (fun c => c.name == jsToLower n) = none)
    (h2 : s.find? (fun c => c.name == storedName n) = none) :
    (runCreateCategory s n freshId now).1 = s ++ [⟨freshId, storedName n, now⟩] ∧
    (runCreateCategory s n freshId now).2
      = CatCreateResp.createdDoc ⟨freshId, storedName n, now⟩ ∧
    statusOfCreate (runCreateCategory s n freshId now).2 = 201 ∧
    clientCategoryName (runCreateCategory s n freshId now).2 = some (storedName n) := by
  unfold runCreateCategory
  simp [h1, h2, statusOfCreate, clientCategoryName]

theorem categoryCreate_success_witness :
    ([(⟨0, "home", 0⟩ : Category)].find? (fun c => c.name == jsToLower "  Work ") = none) ∧
    ([(⟨0, "home", 0⟩ : Category)].find? (fun c => c.name == storedName "  Work ") = none) ∧
    ((runCreateCategory [(⟨0, "home", 0⟩ : Category)] "  Work " 1 9).1
        = [(⟨0, "home", 0⟩ : Category)] ++ [⟨1, storedName "  Work ", 9⟩] ∧
      (runCreateCategory [(⟨0, "home", 0⟩ : Category)] "  Work " 1 9).2
        = CatCreateResp.createdDoc ⟨1, storedName "  Work ", 9⟩ ∧
      statusOfCreate (runCreateCategory [(⟨0, "home", 0⟩ : Category)] "  Work " 1 9).2 = 201 ∧
      clientCategoryName (runCreateCategory [(⟨0, "home", 0⟩ : Category)] "  Work " 1 9).2
        = some (storedName "  Work ")) :=
  ⟨by decide, by decide, categoryCreate_success _ "  Work " 1 9 (by decide) (by decide)⟩

/-! ### Claim C6: task create with an empty title -/

/-- C6: a task create whose title is empty after trimming fails validation and
persists nothing, both at the service level (the collection after the failed
create equals the collection before it) and at the client level (handleAddTask
issues no request and leaves the task list as it was). -/
theorem taskCreate_emptyTitle (s tasks : List Task) (dto : CreateTaskDto)
    (freshId : String) (now : Int) (h : jsTrim dto.title = "") :
    runCreateTask s dto freshId now = (s, TaskCreateResp.validationErr) ∧
    clientHandleAddTask tasks s dto freshId now = (tasks, s) := by
  unfold runCreateTask clientHandleAddTask
  simp [h]

theorem taskCreate_emptyTitle_witness :
    jsTrim "   " = "" ∧
    (runCreateTask [] ⟨"   ", "notes", false, Priority.medium, none, "personal"⟩ "id1" 2
        = ([], TaskCreateResp.validationErr) ∧
      clientHandleAddTask [] [] ⟨"   ", "notes", false, Priority.medium, none, "personal"⟩ "id1" 2
        = ([], [])) :=
  ⟨by decide, taskCreate_emptyTitle [] [] _ "id1" 2 (by decide)⟩

/-! ### Claim C4: partial task update -/

/-- C4: updating an existing task applies exactly the supplied fields: every
supplied field of the patch takes the supplied value, every unsupplied field
keeps its prior value, id and createdAt equal their prior values in every
case, and records with a different id stay in the collection untouched. -/
theorem taskUpdate_partial (s : List Task) (tid : String) (p : TaskPatch) (t : Task)
    (h : s.find? (fun u => u.id == tid) = some t) :
    (runUpdateTask s tid p).2 = TaskUpdateResp.updated (applyPatch t p) ∧
    (applyPatch t p).id = t.id ∧
    (applyPatch t p).createdAt = t.createdAt ∧
    (∀ v, p.title = some v → (applyPatch t p).title = v) ∧
    (p.title = none → (applyPatch t p).title = t.title) ∧
    (∀ v, p.description = some v → (applyPatch t p).description = v) ∧
    (p.description = none → (applyPatch t p).description = t.description) ∧
    (∀ v, p.completed = some v → (applyPatch t p).completed = v) ∧
    (p.completed = none → (applyPatch t p).completed = t.completed) ∧
    (∀ v, p.priority = some v → (applyPatch t p).priority = v) ∧
    (p.priority = none → (applyPatch t p).priority = t.priority) ∧
    (∀ v, p.dueDate = some v → (applyPatch t p).dueDate = v) ∧
    (p.dueDate = none → (applyPatch t p).dueDate = t.dueDate) ∧
    (∀ v, p.category = some v → (applyPatch t p).category = v) ∧
    (p.category = none → (applyPatch t p).category = t.category) ∧
    (∀ u ∈ s, u.id ≠ tid → u ∈ (runUpdateTask s tid p).1) := by
  have hrun : runUpdateTask s tid p
      = (s.map fun u => if u.id == tid then applyPatch u p else u,
         TaskUpdateResp.updated (applyPatch t p)) := by
    unfold runUpdateTask
    rw [h]
  rw [hrun]
  refine ⟨rfl, rfl, rfl, ?_, ?_, ?_, ?_, ?_, ?_, ?_, ?_, ?_, ?_, ?_, ?_, ?_⟩
  · intro v hv
    simp [applyPatch, hv]
  · intro hv
    simp [applyPatch, hv]
  · intro v hv
    simp [applyPatch, hv]
  · intro hv
    simp [applyPatch, hv]
  · intro v hv
    simp [applyPatch, hv]
  · intro hv
    simp [applyPatch, hv]
  · intro v hv
    simp [applyPatch, hv]
  · intro hv
    simp [applyPatch, hv]
  · intro v hv
    simp [applyPatch, hv]
  · intro hv
    simp [applyPatch, hv]
  · intro v hv
    simp [applyPatch, hv]
  · intro hv
    simp [applyPatch, hv]
  · intro u hu hne
    exact List.mem_map.mpr ⟨u, hu, by simp [hne]⟩

/-- Concrete task used to witness the update theorem. -/
def wTask : Task :=
  { id := "a1"
    title := "old title"
    description := "old description"
    completed := false
    priority := Priority.medium
    dueDate := none
    category := "personal"
    createdAt := 11 }

/-- Concrete patch used to witness the update theorem: it supplies title and
completed only. -/
def wPatch : TaskPatch :=
  { title := some "new title"
    description := none
    completed := some true
    priority := none
    dueDate := none
    category := none }

theorem taskUpdate_partial_witness :
    ([wTask].find? (fun u => u.id == "a1") = some wTask) ∧
    ((runUpdateTask [wTask] "a1" wPatch).2 = TaskUpdateResp.updated (applyPatch wTask wPatch) ∧
      (applyPatch wTask wPatch).id = wTask.id ∧
      (applyPatch wTask wPatch).createdAt = wTask.createdAt ∧
      (∀ v, wPatch.title = some v → (applyPatch wTask wPatch).title = v) ∧
      (wPatch.title = none → (applyPatch wTask wPatch).title = wTask.title) ∧
      (∀ v, wPatch.description = some v → (applyPatch wTask wPatch).description = v) ∧
      (wPatch.description = none →
        (applyPatch wTask wPatch).description = wTask.description) ∧
      (∀ v, wPatch.completed = some v → (applyPatch wTask wPatch).completed = v) ∧
      (wPatch.completed = none → (applyPatch wTask wPatch).completed = wTask.completed) ∧
      (∀ v, wPatch.priority = some v → (applyPatch wTask wPatch).priority = v) ∧
      (wPatch.priority = none → (applyPatch wTask wPatch).priority = wTask.priority) ∧
      (∀ v, wPatch.dueDate = some v → (applyPatch wTask wPatch).dueDate = v) ∧
      (wPatch.dueDate = none → (applyPatch wTask wPatch).dueDate = wTask.dueDate) ∧
      (∀ v, wPatch.category = some v → (applyPatch wTask wPatch).category = v) ∧
      (wPatch.category = none → (applyPatch wTask wPatch).category = wTask.category) ∧
      (∀ u ∈ [wTask], u.id ≠ "a1" → u ∈ (runUpdateTask [wTask] "a1" wPatch).1)) :=
  ⟨by decide, taskUpdate_partial [wTask] "a1" wPatch wTask (by decide)⟩

/-! ### Claim C7: category name uniqueness invariant -/

/-- Auxiliary invariant: lowercased names are pairwise distinct and every
stored name is already lowercase (the schema setters wrote it). -/
def CatInvariant (s : List Category) : Prop :=
  List.Pairwise (fun a b => jsToLower a.name ≠ jsToLower b.name) s ∧
  ∀ c ∈ s, jsToLower c.name = c.name

theorem catInvariant_preserved (s : List Category) (h : CatReachable s) : CatInvariant s := by
  induction h with
  | init => exact ⟨List.Pairwise.nil, by simp⟩
  | create s n freshId now _ ih =>
      obtain ⟨hpair, hlower⟩ := ih
      unfold runCreateCategory
      by_cases h1 : (s.find? fun c => c.name == jsToLower n).isSome
      · simpa [h1] using ⟨hpair, hlower⟩
      · by_cases h2 : (s.find? fun c2 => c2.name == storedName n).isSome
        · simpa [h1, h2] using ⟨hpair, hlower⟩
        · have hnew : ∀ c ∈ s, c.name ≠ storedName n := by
            intro c hc
            by_contra hEq
            exact h2 (List.find?_isSome.mpr ⟨c, hc, by simp [hEq]⟩)
          have hstored : jsToLower (storedName n) = storedName n := by
            unfold storedName
            exact jsToLower_idem (jsTrim n)
          constructor
          · simp only [h1, h2, Bool.false_eq_true, if_false]
            rw [List.pairwise_append]
            refine ⟨hpair, List.pairwise_singleton _ _, ?_⟩
            intro a ha b hb
            simp only [List.mem_singleton] at hb
            subst hb
            simp only [hstored]
            rw [hlower a ha]
            exact hnew a ha
          · simp only [h1, h2, Bool.false_eq_true, if_false]
            intro c hc
            rcases List.mem_append.mp hc with hc | hc
            · exact hlower c hc
            · simp only [List.mem_singleton] at hc
              subst hc
              exact hstored
  | del s n _ ih =>
      obtain ⟨hpair, hlower⟩ := ih
      unfold runDeleteCategory
      cases hfind : s.find? fun c => c.name == jsToLower n with
      | none => exact ⟨hpair, hlower⟩
      | some c =>
          constructor
          · exact List.Pairwise.sublist (List.filter_sublist s) hpair
          · intro c2 hc2
            exact hlower c2 (List.mem_of_mem_filter hc2)

/-- C7: in every category collection state reachable from the empty collection
by the category service operations, no two records share the same lowercased
name. -/
theorem categoryNames_unique (s : List Category) (h : CatReachable s) :
    List.Pairwise (fun a b => jsToLower a.name ≠ jsToLower b.name) s :=
  (catInvariant_preserved s h).1

theorem categoryNames_unique_witness :
    List.Pairwise (fun a b => jsToLower a.name ≠ jsToLower b.name)
      (runCreateCategory (runCreateCategory [] "Work" 0 0).1 "home" 1 0).1 :=
  categoryNames_unique _
    (CatReachable.create _ _ 1 0 (CatReachable.create _ _ 0 0 CatReachable.init))

end TaskApp
